import Mathlib

/-!
# Verification of the `overpass` PACE extraction pipeline

A shallow embedding of `src/pace_extractor.py` (class `PaceExtractor` and the
module-level utility `filter_rrc`), together with theorems settling the
specification claims about it.

Modelling conventions:

* The extractor works per `(station_code, product_type)` key; all filesystem
  state relevant to one call lives in one output directory.  We model that
  state as `FS`: the set of checkpoint files for the key (an association list
  from batch number to the list of records stored in the file, kept sorted by
  batch number — the zero-padded naming `b{num:04d}` makes the sorted
  directory listing coincide with numeric order for the batch counts
  considered here, and only the count and contents of checkpoints are used by
  the claims), plus the optional final artifact contents.
* A granule is an opaque value of a type `G`.  Opening a granule stream and
  extracting the pixel record (`_extract_granule_pixel` composed with
  `earthaccess.open`, which is order preserving) either succeeds with a
  record of type `R` or raises; we model this as `extract : G → Option R`,
  `none` standing for a raised exception caught by the `except` clause.
* `xarray.Dataset.sortby('time')` is modelled by `List.mergeSort` on a
  `time : R → Int` key (a stable ascending sort).
* The final `to_netcdf` write in `_finalize_station` may fail; the boolean
  `writeOk` selects that outcome.  A failed write propagates the exception
  (`Outcome.err`) and leaves the filesystem unchanged.  Checkpoint writes in
  the extraction loop happen inside the `try:` block, so their failures are
  not separately modelled (no claim concerns them).
* Python floats are modelled by `ℚ` (exact arithmetic); `np.sqrt` by
  `Real.sqrt` where a claim mentions it.
-/

namespace Overpass

/-- Result of a call that either returns a value (`ret none` models Python's
`return None`, `ret (some p)` a returned path) or propagates an exception. -/
inductive Outcome where
  | ret (p : Option String)
  | err
  deriving DecidableEq, Repr

/-- Python exceptions relevant to the embedding. -/
inductive PyError where
  | nameError
  deriving DecidableEq, Repr

/-- The checkpoint files present for one `(station_code, product_type)` key:
an association list from batch number (the `NNNN` in
`checkpoint_{station}_{product}_b{NNNN:04d}.nc`) to the records stored in the
file, kept sorted by batch number with distinct keys. -/
abbrev CP (R : Type) := List (Nat × List R)

/-- Filesystem state for one `(station_code, product_type)` key. -/
structure FS (R : Type) where
  checkpoints : CP R
  final : Option (List R)
  deriving DecidableEq, Repr

/-- Writing checkpoint file `b` (`xarray.to_netcdf` on the path from
`_get_checkpoint_path`): inserts at the sorted position, overwriting an
existing file with the same batch number (same filename). -/
def cpInsert {R : Type} (b : Nat) (v : List R) : CP R → CP R
  | [] => [(b, v)]
  | (k, w) :: t =>
    if b < k then (b, v) :: (k, w) :: t
    else if b = k then (b, v) :: t
    else (k, w) :: cpInsert b v t

/-- Line 46: `batch_num = batch_index // self.batch_size`. -/
def batch_num (N batch_index : Nat) : Nat := batch_index / N

/-- `f"{n:04d}"`. -/
def pad4 (n : Nat) : String :=
  let s := toString n
  if s.length < 4 then String.mk (List.replicate (4 - s.length) '0') ++ s else s

/-- Lines 44-47, `_get_checkpoint_path`: the checkpoint filename for a given
(1-based) global granule index. -/
def get_checkpoint_path (N : Nat) (station_code product_type : String)
    (batch_index : Nat) : String :=
  "checkpoint_" ++ station_code ++ "_" ++ product_type ++ "_b"
    ++ pad4 (batch_num N batch_index) ++ ".nc"

/-- Line 82: `f"{station_code}_{product_type}_final.nc"`. -/
def finalName (station_code product_type : String) : String :=
  station_code ++ "_" ++ product_type ++ "_final.nc"

/-- Lines 109-124: the extraction loop of `extract_and_save`.  `N` is
`self.batch_size`, `total` is `total_granules`, `pc` is `processed_count`
(both fixed before the loop), `i` the `enumerate` counter, `cur` the
in-memory `current_batch`, and `cp` the checkpoint files on disk.  A failed
extraction (`extract g = none`) is caught by the `except` clause: the loop
logs and continues, so the batch-flush check for that iteration is skipped.
When the loop ends, a non-empty `cur` is simply dropped (never persisted). -/
def runLoop {G R : Type} (N total pc : Nat) (extract : G → Option R) :
    List G → Nat → List R → CP R → CP R
  | [], _, _, cp => cp
  | g :: gs, i, cur, cp =>
    match extract g with
    | none => runLoop N total pc extract gs (i + 1) cur cp
    | some r =>
      let cur' := cur ++ [r]
      let gidx := pc + i + 1
      if gidx % N = 0 ∨ gidx = total then
        runLoop N total pc extract gs (i + 1) []
          (cpInsert (batch_num N gidx) cur' cp)
      else
        runLoop N total pc extract gs (i + 1) cur' cp

/-- Lines 128-155, `_finalize_station`: if no checkpoints exist, return
`None` and do nothing; otherwise concatenate every checkpoint's records (in
sorted filename order), sort by time, write the final artifact, and delete
the checkpoints only after the write succeeded.  `writeOk = false` models a
failing final `to_netcdf`: the exception propagates and the checkpoints (and
the absent final artifact) are left untouched. -/
def finalize_station {R : Type} (time : R → Int) (station_code product_type : String)
    (writeOk : Bool) (fs : FS R) : Outcome × FS R :=
  if fs.checkpoints.isEmpty then
    (Outcome.ret none, fs)
  else
    let allRecs := (fs.checkpoints.map Prod.snd).flatten
    let sortedRecs := allRecs.mergeSort (fun a b => decide (time a ≤ time b))
    if writeOk then
      (Outcome.ret (some (finalName station_code product_type)),
       { checkpoints := [], final := some sortedRecs })
    else
      (Outcome.err, fs)

/-- The observable result of one `extract_and_save` call: the returned value
(or propagated exception), the filesystem state afterwards, and the granules
passed to `earthaccess.open` (hence opened and iterated). -/
structure RunOut (G R : Type) where
  out : Outcome
  fs : FS R
  opened : List G
  deriving DecidableEq, Repr

/-- Lines 77-126, `extract_and_save`.

1. If the final artifact exists, return its path immediately (lines 82-85).
2. Otherwise `processed_count = len(checkpoints) * batch_size` (lines 88-93);
   if `processed_count >= total_granules and total_granules > 0`, finalize
   directly (lines 95-98).
3. Otherwise run the extraction loop over `granules[processed_count:]`
   (lines 103-124) and finalize (line 126). -/
def extract_and_save {G R : Type} (N : Nat) (time : R → Int) (extract : G → Option R)
    (station_code product_type : String) (granules : List G) (writeOk : Bool)
    (fs : FS R) : RunOut G R :=
  if fs.final.isSome then
    ⟨Outcome.ret (some (finalName station_code product_type)), fs, []⟩
  else
    let total := granules.length
    let processed_count := fs.checkpoints.length * N
    if processed_count ≥ total ∧ 0 < total then
      let fo := finalize_station time station_code product_type writeOk fs
      ⟨fo.1, fo.2, []⟩
    else
      let remaining := granules.drop processed_count
      let cp' := runLoop N total processed_count extract remaining 0 [] fs.checkpoints
      let fo := finalize_station time station_code product_type writeOk
        { checkpoints := cp', final := fs.final }
      ⟨fo.1, fo.2, remaining⟩

/-- Lines 25-42, `find_granules`.  Line 33 selects the catalog short name;
line 34 then interpolates the name `temporal` into the log message, but no
such name is bound anywhere (the parameter is `temporal_range` and the module
defines no `temporal`), so every call raises `NameError` before the
`earthaccess.search_data` delegation on lines 35-40 can run.  The unreachable
delegation is recorded by `find_granules_delegation` below. -/
def find_granules {G : Type}
    (search : String → ℚ × ℚ → String × String → Int → List G)
    (product_type : String) (lat lon : ℚ) (temporal_range : String × String) :
    Except PyError (List G) :=
  let shortName := if product_type == "Rrs" then "PACE_OCI_L2_AOP" else "PACE_OCI_L2_RRC"
  let _ := search shortName
  Except.error PyError.nameError

/-- The delegation written on lines 35-40 of `find_granules` (the code that
would run were line 34's `NameError` fixed): `earthaccess.search_data` with
the mapped short name, `point=(lon, lat)`, the given temporal range, and
`count=-1` (unbounded), its results returned unchanged. -/
def find_granules_delegation {G : Type}
    (search : String → ℚ × ℚ → String × String → Int → List G)
    (product_type : String) (lat lon : ℚ) (temporal_range : String × String) :
    List G :=
  let shortName := if product_type == "Rrs" then "PACE_OCI_L2_AOP" else "PACE_OCI_L2_RRC"
  search shortName (lon, lat) temporal_range (-1)

/-- An open OCI granule as `_extract_granule_pixel` reads it (lines 55-57):
the `navigation_data` group (2D per-pixel `latitude`/`longitude` over
`number_of_lines × pixels_per_line`, plus the scalar `time_coverage_start`
attribute, modelled already parsed to a timestamp), the `geophysical_data`
group (the reflectance variable selected by `var_name`, giving the full
spectral vector at each pixel, plus the per-pixel `l2_flags` bitmask), and
the `sensor_band_parameters` group (the 1D `wavelength` axis).  Index
functions are total over `Nat`; only indices inside the grid are meaningful. -/
structure GranuleSource where
  rows : Nat
  cols : Nat
  latitude : Nat → Nat → ℚ
  longitude : Nat → Nat → ℚ
  time_coverage_start : Int
  spectra : Nat → Nat → List ℚ
  l2_flags : Nat → Nat → Nat
  wavelength : List ℚ

/-- The single-pixel record built on lines 64-74. -/
structure PixelRecord where
  spectrum : List ℚ
  wavelength : List ℚ
  time : Int
  lat : ℚ
  lon : ℚ
  l2_flags : Nat
  deriving DecidableEq, Repr

/-- Squared Euclidean distance of pixel `(iy, ix)` to the target; line 60
computes `np.sqrt` of this, and `argmin` of the square root coincides with
`argmin` of the square since `√` is monotone on `[0, ∞)`. -/
def distSq (src : GranuleSource) (lat lon : ℚ) (iy ix : Nat) : ℚ :=
  (src.latitude iy ix - lat) ^ 2 + (src.longitude iy ix - lon) ^ 2

/-- `np.argmin` over the first `n` values of `f` in flat scan order: the
first index attaining the minimum (a later index replaces the current best
only when strictly smaller). -/
def argminFlat (f : Nat → ℚ) : Nat → Nat
  | 0 => 0
  | n + 1 =>
    let b := argminFlat f n
    if f n < f b then n else b

/-- Lines 50-74, `_extract_granule_pixel`: find the flat index minimizing the
distance on the 2D grid (line 61), unravel it row-major into
`(number_of_lines, pixels_per_line)` coordinates (line 62), and build the
record: the full spectral vector at that pixel, the wavelength axis, the
granule timestamp, the matched pixel's own lat/lon and quality bitmask. -/
def extract_granule_pixel (src : GranuleSource) (lat lon : ℚ) : PixelRecord :=
  let idx := argminFlat
    (fun j => distSq src lat lon (j / src.cols) (j % src.cols))
    (src.rows * src.cols)
  let iy := idx / src.cols
  let ix := idx % src.cols
  { spectrum := src.spectra iy ix
    wavelength := src.wavelength
    time := src.time_coverage_start
    lat := src.latitude iy ix
    lon := src.longitude iy ix
    l2_flags := src.l2_flags iy ix }

/-- One record of a dataset carrying an `l2_flags` coordinate, as consumed by
`filter_rrc`; `vals` are the data values that `Dataset.where` would replace
with missing values when the mask is false. -/
structure FlagRec where
  l2_flags : Nat
  vals : List ℚ
  deriving DecidableEq, Repr

/-- Line 163: `(1<<1 | 1<<3 | 1<<5)`. -/
def rrcMask : Nat := (1 <<< 1) ||| (1 <<< 3) ||| (1 <<< 5)

/-- Lines 159-164, `filter_rrc`: `ds.where((ds.l2_flags & mask) == 0)` keeps
a record unchanged where the mask condition holds and replaces it with
missing values (`none`) where it does not. -/
def filter_rrc (ds : List FlagRec) : List (Option FlagRec) :=
  ds.map (fun r => if r.l2_flags &&& rrcMask = 0 then some r else none)

/-! ## Helper lemmas -/

/-- Writing a checkpoint whose batch number is larger than that of every
existing checkpoint appends it to the sorted listing. -/
theorem cpInsert_of_forall_lt {R : Type} (b : Nat) (v : List R) :
    ∀ cp : CP R, (∀ p ∈ cp, p.1 < b) → cpInsert b v cp = cp ++ [(b, v)]
  | [], _ => rfl
  | (k, w) :: t, h => by
    have hk : k < b := h (k, w) (List.mem_cons_self _ _)
    simp only [cpInsert, if_neg (by omega : ¬b < k), if_neg (by omega : ¬b = k),
      List.cons_append, List.cons.injEq, true_and]
    exact cpInsert_of_forall_lt b v t (fun p hp => h p (List.mem_cons_of_mem _ hp))

/-- `argminFlat` stays inside the scanned range. -/
theorem argminFlat_lt (f : Nat → ℚ) : ∀ n, 0 < n → argminFlat f n < n
  | n + 1, _ => by
    simp only [argminFlat]
    split
    · exact Nat.lt_succ_self n
    · cases n with
      | zero => simp [argminFlat]
      | succ m => exact Nat.lt_succ_of_lt (argminFlat_lt f (m + 1) (Nat.succ_pos m))

/-- `argminFlat` attains the minimum of `f` over the scanned range. -/
theorem argminFlat_min (f : Nat → ℚ) : ∀ n, ∀ j, j < n → f (argminFlat f n) ≤ f j
  | 0, j, hj => absurd hj (Nat.not_lt_zero j)
  | n + 1, j, hj => by
    have hbase : ∀ i, i < n → f (argminFlat f n) ≤ f i := argminFlat_min f n
    simp only [argminFlat]
    rcases Nat.lt_succ_iff_lt_or_eq.mp hj with hj' | rfl
    · split
      · exact le_of_lt (lt_of_lt_of_le (by assumption) (hbase j hj'))
      · exact hbase j hj'
    · split
      · exact le_refl _
      · exact le_of_not_lt (by assumption)

/-- Bit `i` of the literal `42 = 0b101010` is clear away from positions
`1`, `3`, `5`. -/
theorem testBit_42_eq_false (i : Nat) (h1 : i ≠ 1) (h3 : i ≠ 3) (h5 : i ≠ 5) :
    Nat.testBit 42 i = false := by
  match i with
  | 0 => decide
  | 1 => exact absurd rfl h1
  | 2 => decide
  | 3 => exact absurd rfl h3
  | 4 => decide
  | 5 => exact absurd rfl h5
  | (k + 6) =>
    refine Nat.testBit_lt_two_pow ?_
    have h6 : (2 : Nat) ^ 6 ≤ 2 ^ (k + 6) := Nat.pow_le_pow_right (by omega) (by omega)
    omega

/-- `f AND 42 = 0` says exactly that bits `1`, `3`, `5` of `f` are clear. -/
theorem and_42_eq_zero_iff (f : Nat) :
    f &&& 42 = 0 ↔
      (f.testBit 1 = false ∧ f.testBit 3 = false ∧ f.testBit 5 = false) := by
  constructor
  · intro h
    have hb : ∀ i, (f &&& 42).testBit i = false := by
      intro i; rw [h]; exact Nat.zero_testBit i
    refine ⟨?_, ?_, ?_⟩
    · have := hb 1; rwa [Nat.testBit_and, (by decide : Nat.testBit 42 1 = true),
        Bool.and_true] at this
    · have := hb 3; rwa [Nat.testBit_and, (by decide : Nat.testBit 42 3 = true),
        Bool.and_true] at this
    · have := hb 5; rwa [Nat.testBit_and, (by decide : Nat.testBit 42 5 = true),
        Bool.and_true] at this
  · rintro ⟨h1, h3, h5⟩
    refine Nat.eq_of_testBit_eq (fun i => ?_)
    rw [Nat.testBit_and, Nat.zero_testBit]
    by_cases e1 : i = 1
    · subst e1; rw [h1]; rfl
    by_cases e3 : i = 3
    · subst e3; rw [h3]; rfl
    by_cases e5 : i = 5
    · subst e5; rw [h5]; rfl
    rw [testBit_42_eq_false i e1 e3 e5, Bool.and_false]

/-- The sort performed by `_finalize_station` is sorted ascending in time. -/
theorem sorted_by_time {R : Type} (time : R → Int) (l : List R) :
    List.Sorted (fun a b => time a ≤ time b)
      (l.mergeSort (fun a b => decide (time a ≤ time b))) := by
  have h := @List.sorted_mergeSort R (fun a b => decide (time a ≤ time b))
    (by intro a b c hab hbc
        simp only [decide_eq_true_eq] at hab hbc ⊢
        exact le_trans hab hbc)
    (by intro a b
        simp only [Bool.or_eq_true, decide_eq_true_eq]
        exact le_total _ _)
    l
  exact h.imp (by intro a b hab; simpa using hab)

/-- Unfolding the loop one step on a successfully extracting granule. -/
theorem runLoop_cons_some {G R : Type} (N total pc : Nat) (extract : G → Option R)
    (g : G) (gs : List G) (i : Nat) (cur : List R) (cp : CP R) (r : R)
    (hg : extract g = some r) :
    runLoop N total pc extract (g :: gs) i cur cp =
      if (pc + i + 1) % N = 0 ∨ pc + i + 1 = total then
        runLoop N total pc extract gs (i + 1) []
          (cpInsert (batch_num N (pc + i + 1)) (cur ++ [r]) cp)
      else
        runLoop N total pc extract gs (i + 1) (cur ++ [r]) cp := by
  simp only [runLoop, hg]

/-- Unfolding the loop one step on a failing granule: the `except` clause
logs and continues, skipping the flush check for that iteration. -/
theorem runLoop_cons_none {G R : Type} (N total pc : Nat) (extract : G → Option R)
    (g : G) (gs : List G) (i : Nat) (cur : List R) (cp : CP R)
    (hg : extract g = none) :
    runLoop N total pc extract (g :: gs) i cur cp =
      runLoop N total pc extract gs (i + 1) cur cp := by
  simp only [runLoop, hg]

/-- Running the loop through one batch-aligned chunk of successfully
extracting granules: the chunk's records are appended to the in-memory batch
and flushed as one checkpoint when the chunk's last granule fires the flush
condition, no earlier granule of the chunk firing it. -/
theorem runLoop_chunk {G R : Type} (N total pc : Nat) (extract : G → Option R)
    (f : G → R) :
    ∀ (chunk rest : List G) (i : Nat) (cur : List R) (cp : CP R),
    chunk ≠ [] →
    (∀ g ∈ chunk, extract g = some (f g)) →
    ((pc + i + chunk.length) % N = 0 ∨ pc + i + chunk.length = total) →
    (∀ k, k + 1 < chunk.length →
      ¬((pc + i + k + 1) % N = 0 ∨ pc + i + k + 1 = total)) →
    runLoop N total pc extract (chunk ++ rest) i cur cp =
      runLoop N total pc extract rest (i + chunk.length) []
        (cpInsert (batch_num N (pc + i + chunk.length)) (cur ++ chunk.map f) cp) := by
  intro chunk
  induction chunk with
  | nil => intro rest i cur cp hne; exact absurd rfl hne
  | cons g chunk' ih =>
    intro rest i cur cp _ hsucc hlast hmid
    have hg : extract g = some (f g) := hsucc g (List.mem_cons_self _ _)
    rw [List.cons_append, runLoop_cons_some N total pc extract g _ i cur cp (f g) hg]
    cases chunk' with
    | nil =>
      simp only [List.length_cons, List.length_nil, Nat.zero_add] at hlast
      rw [if_pos hlast]
      simp
    | cons g' t =>
      have hmid0 : ¬((pc + i + 1) % N = 0 ∨ pc + i + 1 = total) := by
        have := hmid 0 (by simp)
        simpa using this
      rw [if_neg hmid0]
      have hlast' : (pc + (i + 1) + (g' :: t).length) % N = 0 ∨
          pc + (i + 1) + (g' :: t).length = total := by
        have harith : pc + (i + 1) + (g' :: t).length =
            pc + i + (g :: g' :: t).length := by
          simp only [List.length_cons]; omega
        rw [harith]; exact hlast
      have hmid' : ∀ k, k + 1 < (g' :: t).length →
          ¬((pc + (i + 1) + k + 1) % N = 0 ∨ pc + (i + 1) + k + 1 = total) := by
        intro k hk
        have harith : pc + (i + 1) + k + 1 = pc + i + (k + 1) + 1 := by omega
        rw [harith]
        exact hmid (k + 1) (by simp only [List.length_cons] at hk ⊢; omega)
      rw [ih rest (i + 1) (cur ++ [f g]) cp (by simp)
        (fun a ha => hsucc a (List.mem_cons_of_mem _ ha)) hlast' hmid']
      congr 1
      · simp only [List.length_cons]; omega
      · congr 1
        · show batch_num N (pc + (i + 1) + (g' :: t).length) =
            batch_num N (pc + i + (g :: g' :: t).length)
          congr 1
          simp only [List.length_cons]; omega
        · simp
/-- The extraction loop over `m` full batches of successfully extracting
granules, starting batch-aligned at global position `i` with an empty
in-memory batch: it appends, to the existing checkpoint listing, one
checkpoint per batch, numbered `i/N + 1, …, i/N + m`, the `k`-th holding the
records of granules `[i + k*N, i + (k+1)*N)` of the remaining list. -/
theorem runLoop_full_batches {G R : Type} (N total : Nat) (hN : 0 < N)
    (extract : G → Option R) (f : G → R) :
    ∀ (m : Nat) (gs : List G) (i : Nat) (cp : CP R),
    gs.length = m * N →
    i % N = 0 →
    i + m * N = total →
    (∀ g ∈ gs, extract g = some (f g)) →
    (∀ p ∈ cp, p.1 ≤ i / N) →
    runLoop N total 0 extract gs i [] cp =
      cp ++ (List.range m).map
        (fun k => (i / N + (k + 1), ((gs.drop (k * N)).take N).map f)) := by
  intro m
  induction m with
  | zero =>
    intro gs i cp hlen _ _ _ _
    have hnil : gs = [] := List.length_eq_zero.mp (by simpa using hlen)
    subst hnil
    simp [runLoop]
  | succ m ih =>
    intro gs i cp hlen hi htotal hsucc hkeys
    obtain ⟨q, rfl⟩ : ∃ q, i = N * q :=
      ⟨i / N, (Nat.mul_div_cancel' (Nat.dvd_of_mod_eq_zero hi)).symm⟩
    have hq : N * q / N = q := Nat.mul_div_cancel_left q hN
    have hmul : N ≤ (m + 1) * N := Nat.le_mul_of_pos_left N (Nat.succ_pos m)
    have hNle : N ≤ gs.length := by omega
    have hchunklen : (gs.take N).length = N := by
      rw [List.length_take]; omega
    have hchunkne : gs.take N ≠ [] := by
      intro h
      rw [h] at hchunklen
      simp only [List.length_nil] at hchunklen
      omega
    have hstep := runLoop_chunk N total 0 extract f (gs.take N) (gs.drop N)
      (N * q) [] cp hchunkne
      (fun g hg => hsucc g (List.take_subset N gs hg))
      (by
        rw [hchunklen]
        left
        have he : 0 + N * q + N = N * (q + 1) := by ring
        rw [he]
        exact Nat.mul_mod_right N (q + 1))
      (by
        intro k hk
        rw [hchunklen] at hk
        rintro (hA | hB)
        · have he : 0 + N * q + k + 1 = N * q + (k + 1) := by ring
          rw [he, Nat.mul_add_mod, Nat.mod_eq_of_lt hk] at hA
          omega
        · omega)
    rw [List.take_append_drop N gs, hchunklen] at hstep
    have hkeynum : batch_num N (0 + N * q + N) = q + 1 := by
      unfold batch_num
      have he : 0 + N * q + N = N * (q + 1) := by ring
      rw [he, Nat.mul_div_cancel_left _ hN]
    rw [hkeynum] at hstep
    have hins : cpInsert (q + 1) ([] ++ (gs.take N).map f) cp =
        cp ++ [(q + 1, (gs.take N).map f)] := by
      rw [List.nil_append]
      refine cpInsert_of_forall_lt _ _ cp (fun p hp => ?_)
      have := hkeys p hp
      rw [hq] at this
      omega
    rw [hins] at hstep
    have hdivq1 : (N * q + N) / N = q + 1 := by
      have he : N * q + N = N * (q + 1) := by ring
      rw [he, Nat.mul_div_cancel_left _ hN]
    have hih := ih (gs.drop N) (N * q + N) (cp ++ [(q + 1, (gs.take N).map f)])
      (by
        rw [List.length_drop, hlen]
        have he : (m + 1) * N = m * N + N := by ring
        omega)
      (by
        have he : N * q + N = N * (q + 1) := by ring
        rw [he]
        exact Nat.mul_mod_right N (q + 1))
      (by
        have he : N * q + N + m * N = N * q + (m + 1) * N := by ring
        rw [he]
        exact htotal)
      (fun g hg => hsucc g (List.drop_subset N gs hg))
      (by
        intro p hp
        rw [hdivq1]
        rcases List.mem_append.mp hp with h | h
        · have := hkeys p h
          rw [hq] at this
          omega
        · simp only [List.mem_singleton] at h
          rw [h])
    rw [hih] at hstep
    rw [hstep, List.range_succ_eq_map, List.map_cons, List.map_map,
      List.append_assoc, List.singleton_append]
    congr 1
    congr 1
    · simp only [Nat.zero_mul, List.drop_zero, hq]
    · refine List.map_congr_left (fun k _ => ?_)
      have h2 : (gs.drop N).drop (k * N) = gs.drop (Nat.succ k * N) := by
        rw [List.drop_drop]
        congr 1
        rw [Nat.succ_eq_add_one]
        ring
      simp only [Function.comp_apply, h2, hdivq1, hq, Prod.mk.injEq]
      exact ⟨by omega, trivial⟩

/-- Success case of `_finalize_station`: with at least one checkpoint and a
succeeding final write, it returns the final path, the checkpoints are all
deleted, and the final artifact holds the time-sorted concatenation of every
checkpoint's records. -/
theorem finalize_station_ok {R : Type} (time : R → Int) (st pt : String)
    (fs : FS R) (hne : fs.checkpoints ≠ []) :
    finalize_station time st pt true fs =
      (Outcome.ret (some (finalName st pt)),
        ⟨[], some ((fs.checkpoints.map Prod.snd).flatten.mergeSort
          (fun a b => decide (time a ≤ time b)))⟩) := by
  have hemp : fs.checkpoints.isEmpty = false := by
    cases h : fs.checkpoints with
    | nil => exact absurd h hne
    | cons a t => rfl
  unfold finalize_station
  rw [hemp]
  rfl

/-- Failure case of `_finalize_station`: with at least one checkpoint and a
failing final write, the exception propagates and the filesystem is left
untouched. -/
theorem finalize_station_err {R : Type} (time : R → Int) (st pt : String)
    (fs : FS R) (hne : fs.checkpoints ≠ []) :
    finalize_station time st pt false fs = (Outcome.err, fs) := by
  have hemp : fs.checkpoints.isEmpty = false := by
    cases h : fs.checkpoints with
    | nil => exact absurd h hne
    | cons a t => rfl
  unfold finalize_station
  rw [hemp]
  rfl

/-! ## Claim theorems -/

unseal List.mergeSort List.merge in
/-- C1: with `batch_size = 2` and `3 = N + 1` granules all extracting
successfully from a clean state, the claim expects two checkpoint files (one
with 2 records, one with 1).  The code instead numbers the full batch
flushed at 1-based global index 2 as `2 / 2 = 1` and the trailing partial
batch flushed at index 3 as `3 / 2 = 1`, so the partial batch overwrites the
full one: the loop leaves a single checkpoint file holding one record, and
the finalized artifact of the whole run holds only that record — the first
two granules' records are lost. -/
theorem partial_batch_checkpoint_overwritten :
    runLoop 2 3 0 (fun g : Nat => some g) [0, 1, 2] 0 [] [] = [(1, [2])] ∧
    (extract_and_save 2 (fun n : Nat => (n : Int)) (fun g : Nat => some g)
        "ST" "Rrs" [0, 1, 2] true ⟨[], none⟩).fs.final = some [2] := by
  exact ⟨by decide, by decide⟩

/-- C2: with `batch_size = 2` and 4 granules (recorded as records `0..3`, one
per position) all extracting successfully from a clean state, the persisted
checkpoint with batch index 1 holds the records of granule positions `[0, 2)`
and the one with batch index 2 holds positions `[2, 4)` — whereas the claim
requires batch index `b` to hold positions `[2b, 2b + 2)`, i.e. batch 1 to
hold `[2, 4)`.  The code computes the batch index from the 1-based position
of the batch's last granule, shifting every full batch's index up by one. -/
theorem batch_index_shifted_by_one :
    runLoop 2 4 0 (fun g : Nat => some g) [0, 1, 2, 3] 0 [] [] =
      [(1, [0, 1]), (2, [2, 3])] := by
  decide

/-- C3: every call of `find_granules` evaluates, on line 34, an f-string
referring to the unbound name `temporal` (the parameter is `temporal_range`),
so it raises `NameError` before the `earthaccess.search_data` call on lines
35-40 can run — the function never delegates to the catalog and never
returns the collaborator's results.  The delegation as written (and as the
claim describes it) is recorded by `find_granules_delegation`: it would pass
the distinct short names `Rrs ↦ PACE_OCI_L2_AOP` / `Rrc ↦ PACE_OCI_L2_RRC`,
the point `(lon, lat)`, the temporal range, and `count = -1`. -/
theorem find_granules_never_delegates :
    find_granules (fun n p t c => [(n, p, t, c)]) "Rrs" 40 (-70)
        ("2024-04-11", "2025-12-31") = Except.error PyError.nameError ∧
    find_granules_delegation (fun n p t c => [(n, p, t, c)]) "Rrs" 40 (-70)
        ("2024-04-11", "2025-12-31") =
      [("PACE_OCI_L2_AOP", ((-70 : ℚ), (40 : ℚ)), ("2024-04-11", "2025-12-31"),
        (-1 : Int))] ∧
    find_granules_delegation (fun n p t c => [(n, p, t, c)]) "Rrc" 40 (-70)
        ("2024-04-11", "2025-12-31") =
      [("PACE_OCI_L2_RRC", ((-70 : ℚ), (40 : ℚ)), ("2024-04-11", "2025-12-31"),
        (-1 : Int))] := by
  exact ⟨rfl, rfl, rfl⟩

/-- C4: with `batch_size = 2` and `N = 2` granules of which exactly one (the
last) fails to extract, the run does not abort (it returns `None` through
`_finalize_station`), but the checkpoint files end up holding 0 records in
total, not `N - 1 = 1`: the first granule's record sat in the in-memory
batch, the flush check for the final granule ran inside the `try:` block and
was skipped when that granule raised, and the loop ended discarding the
accumulated batch. -/
theorem tail_records_lost_on_final_granule_failure :
    runLoop 2 2 0 (fun g : Nat => if g = 1 then none else some g) [0, 1] 0 [] []
        = ([] : CP Nat) ∧
    extract_and_save 2 (fun n : Nat => (n : Int))
        (fun g : Nat => if g = 1 then none else some g) "ST" "Rrs" [0, 1] true
        ⟨[], none⟩ =
      ⟨Outcome.ret none, ⟨[], none⟩, [0, 1]⟩ := by
  exact ⟨by decide, by decide⟩

/-- C5: when the final artifact is absent, `extract_and_save` computes
`processed_count = len(checkpoints) * batch_size`; if
`processed_count ≥ total_granules > 0` it skips extraction and goes straight
to `_finalize_station` (opening no granule), and otherwise it opens and
processes exactly `granules[processed_count:]`, running the extraction loop
over that suffix before finalizing. -/
theorem extract_and_save_resume {G R : Type} (N : Nat) (time : R → Int)
    (extract : G → Option R) (st pt : String) (granules : List G)
    (writeOk : Bool) (fs : FS R) (hfinal : fs.final = none) :
    (fs.checkpoints.length * N ≥ granules.length ∧ 0 < granules.length →
      extract_and_save N time extract st pt granules writeOk fs =
        ⟨(finalize_station time st pt writeOk fs).1,
          (finalize_station time st pt writeOk fs).2, []⟩) ∧
    (¬(fs.checkpoints.length * N ≥ granules.length ∧ 0 < granules.length) →
      extract_and_save N time extract st pt granules writeOk fs =
        ⟨(finalize_station time st pt writeOk
            ⟨runLoop N granules.length (fs.checkpoints.length * N) extract
              (granules.drop (fs.checkpoints.length * N)) 0 [] fs.checkpoints,
              none⟩).1,
          (finalize_station time st pt writeOk
            ⟨runLoop N granules.length (fs.checkpoints.length * N) extract
              (granules.drop (fs.checkpoints.length * N)) 0 [] fs.checkpoints,
              none⟩).2,
          granules.drop (fs.checkpoints.length * N)⟩) := by
  constructor
  · intro hc
    unfold extract_and_save
    rw [hfinal]
    simp only [Option.isSome_none, Bool.false_eq_true, if_false, if_pos hc]
  · intro hc
    unfold extract_and_save
    rw [hfinal]
    simp only [Option.isSome_none, Bool.false_eq_true, if_false, if_neg hc]

/-- C5 witness: one full-sized checkpoint (2 records), `batch_size = 2`,
3 granules: the run resumes at offset 2, opening only `granules[2:] = [2]`. -/
theorem extract_and_save_resume_witness :
    ((⟨[(1, [0, 1])], none⟩ : FS Nat).final = none) ∧
    (((⟨[(1, [0, 1])], none⟩ : FS Nat).checkpoints.length * 2 ≥
        ([0, 1, 2] : List Nat).length ∧ 0 < ([0, 1, 2] : List Nat).length →
      extract_and_save 2 (fun n : Nat => (n : Int)) (fun g : Nat => some g)
          "ST" "Rrs" [0, 1, 2] true ⟨[(1, [0, 1])], none⟩ =
        ⟨(finalize_station (fun n : Nat => (n : Int)) "ST" "Rrs" true
            ⟨[(1, [0, 1])], none⟩).1,
          (finalize_station (fun n : Nat => (n : Int)) "ST" "Rrs" true
            ⟨[(1, [0, 1])], none⟩).2, []⟩) ∧
    (¬((⟨[(1, [0, 1])], none⟩ : FS Nat).checkpoints.length * 2 ≥
        ([0, 1, 2] : List Nat).length ∧ 0 < ([0, 1, 2] : List Nat).length) →
      extract_and_save 2 (fun n : Nat => (n : Int)) (fun g : Nat => some g)
          "ST" "Rrs" [0, 1, 2] true ⟨[(1, [0, 1])], none⟩ =
        ⟨(finalize_station (fun n : Nat => (n : Int)) "ST" "Rrs" true
            ⟨runLoop 2 ([0, 1, 2] : List Nat).length
              ((⟨[(1, [0, 1])], none⟩ : FS Nat).checkpoints.length * 2)
              (fun g : Nat => some g)
              (([0, 1, 2] : List Nat).drop
                ((⟨[(1, [0, 1])], none⟩ : FS Nat).checkpoints.length * 2))
              0 [] (⟨[(1, [0, 1])], none⟩ : FS Nat).checkpoints, none⟩).1,
          (finalize_station (fun n : Nat => (n : Int)) "ST" "Rrs" true
            ⟨runLoop 2 ([0, 1, 2] : List Nat).length
              ((⟨[(1, [0, 1])], none⟩ : FS Nat).checkpoints.length * 2)
              (fun g : Nat => some g)
              (([0, 1, 2] : List Nat).drop
                ((⟨[(1, [0, 1])], none⟩ : FS Nat).checkpoints.length * 2))
              0 [] (⟨[(1, [0, 1])], none⟩ : FS Nat).checkpoints, none⟩).2,
          ([0, 1, 2] : List Nat).drop
            ((⟨[(1, [0, 1])], none⟩ : FS Nat).checkpoints.length * 2)⟩)) :=
  ⟨rfl, extract_and_save_resume 2 (fun n : Nat => (n : Int)) (fun g : Nat => some g)
    "ST" "Rrs" [0, 1, 2] true ⟨[(1, [0, 1])], none⟩ rfl⟩

/-- C6: when the final artifact exists, `extract_and_save` returns its path
immediately, leaves the filesystem untouched, and opens no granule; calling
it a second time on the resulting state returns the same result. -/
theorem extract_and_save_idempotent {G R : Type} (N : Nat) (time : R → Int)
    (extract : G → Option R) (st pt : String) (granules : List G)
    (writeOk : Bool) (fs : FS R) (h : fs.final.isSome = true) :
    extract_and_save N time extract st pt granules writeOk fs =
        ⟨Outcome.ret (some (finalName st pt)), fs, []⟩ ∧
      extract_and_save N time extract st pt granules writeOk
          (extract_and_save N time extract st pt granules writeOk fs).fs =
        extract_and_save N time extract st pt granules writeOk fs := by
  have h1 : extract_and_save N time extract st pt granules writeOk fs =
      ⟨Outcome.ret (some (finalName st pt)), fs, []⟩ := by
    unfold extract_and_save
    rw [if_pos h]
  exact ⟨h1, by rw [h1]; exact h1⟩

/-- C6 witness: a state whose final artifact exists. -/
theorem extract_and_save_idempotent_witness :
    ((⟨[], some [5]⟩ : FS Nat).final.isSome = true) ∧
    (extract_and_save 2 (fun n : Nat => (n : Int)) (fun g : Nat => some g)
        "ST" "Rrs" [0, 1] true ⟨[], some [5]⟩ =
          ⟨Outcome.ret (some (finalName "ST" "Rrs")), ⟨[], some [5]⟩, []⟩ ∧
      extract_and_save 2 (fun n : Nat => (n : Int)) (fun g : Nat => some g)
          "ST" "Rrs" [0, 1] true
          (extract_and_save 2 (fun n : Nat => (n : Int)) (fun g : Nat => some g)
            "ST" "Rrs" [0, 1] true ⟨[], some [5]⟩).fs =
        extract_and_save 2 (fun n : Nat => (n : Int)) (fun g : Nat => some g)
          "ST" "Rrs" [0, 1] true ⟨[], some [5]⟩) :=
  ⟨rfl, extract_and_save_idempotent 2 (fun n : Nat => (n : Int))
    (fun g : Nat => some g) "ST" "Rrs" [0, 1] true ⟨[], some [5]⟩ rfl⟩

/-- C7: from a clean state, with `batch_size = N ≥ 1` and `M * N` granules
(`M ≥ 1`) all extracting successfully, the extraction loop produces exactly
`M` checkpoint files each holding exactly `N` records, and the finalization
performed by the same `extract_and_save` call leaves no checkpoint and a
final artifact holding all `M * N` records sorted ascending by time. -/
theorem extract_and_save_happy_path {G R : Type} (N M : Nat) (time : R → Int)
    (extract : G → Option R) (f : G → R) (st pt : String) (granules : List G)
    (hN : 1 ≤ N) (hM : 1 ≤ M) (hlen : granules.length = M * N)
    (hsucc : ∀ g ∈ granules, extract g = some (f g)) :
    (runLoop N granules.length 0 extract granules 0 [] []).length = M ∧
    (∀ p ∈ runLoop N granules.length 0 extract granules 0 [] [],
      p.2.length = N) ∧
    (extract_and_save N time extract st pt granules true
      ⟨[], none⟩).fs.checkpoints = [] ∧
    (∃ recs,
      (extract_and_save N time extract st pt granules true
        ⟨[], none⟩).fs.final = some recs ∧
      recs.length = M * N ∧
      List.Sorted (fun a b => time a ≤ time b) recs) := by
  have hcp := runLoop_full_batches N granules.length (by omega) extract f M
    granules 0 [] hlen (by simp) (by omega) hsucc (by simp)
  simp only [List.nil_append] at hcp
  have hlen1 : (runLoop N granules.length 0 extract granules 0 [] []).length
      = M := by
    rw [hcp]; simp
  have hlens : ∀ p ∈ runLoop N granules.length 0 extract granules 0 [] [],
      p.2.length = N := by
    rw [hcp]
    intro p hp
    simp only [List.mem_map, List.mem_range] at hp
    obtain ⟨k, hk, rfl⟩ := hp
    simp only [List.length_map, List.length_take, List.length_drop, hlen]
    have h1 : (k + 1) * N ≤ M * N := Nat.mul_le_mul_right N (by omega)
    have h2 : (k + 1) * N = k * N + N := by ring
    omega
  have hne : runLoop N granules.length 0 extract granules 0 [] [] ≠ [] := by
    intro h
    rw [h] at hlen1
    simp only [List.length_nil] at hlen1
    omega
  have hgl : 0 < granules.length := by
    rw [hlen]
    exact Nat.mul_pos (by omega) (by omega)
  have hrun : extract_and_save N time extract st pt granules true ⟨[], none⟩ =
      ⟨(finalize_station time st pt true
          ⟨runLoop N granules.length 0 extract granules 0 [] [], none⟩).1,
        (finalize_station time st pt true
          ⟨runLoop N granules.length 0 extract granules 0 [] [], none⟩).2,
        granules⟩ := by
    unfold extract_and_save
    simp only [Option.isSome_none, Bool.false_eq_true, if_false,
      List.length_nil, Nat.zero_mul, List.drop_zero]
    rw [if_neg (by omega)]
  have hfin := finalize_station_ok time st pt
    ⟨runLoop N granules.length 0 extract granules 0 [] [], none⟩ hne
  refine ⟨hlen1, hlens, ?_, ?_⟩
  · rw [hrun, hfin]
  · refine ⟨((runLoop N granules.length 0 extract granules 0 [] []).map
        Prod.snd).flatten.mergeSort (fun a b => decide (time a ≤ time b)),
      ?_, ?_, sorted_by_time time _⟩
    · rw [hrun, hfin]
    · have hperm := List.mergeSort_perm
        (((runLoop N granules.length 0 extract granules 0 [] []).map
          Prod.snd).flatten) (fun a b => decide (time a ≤ time b))
      rw [hperm.length_eq, List.length_flatten]
      have hrep : ((runLoop N granules.length 0 extract granules 0 [] []).map
          Prod.snd).map List.length = List.replicate M N := by
        rw [List.eq_replicate_iff]
        constructor
        · simp [hlen1]
        · intro b hb
          simp only [List.map_map, List.mem_map, Function.comp_apply] at hb
          obtain ⟨p, hp, rfl⟩ := hb
          exact hlens p hp
      rw [hrep, List.sum_replicate, smul_eq_mul]

/-- C7 witness: `batch_size = 2`, `M = 2`, four granules all succeeding. -/
theorem extract_and_save_happy_path_witness :
    (1 ≤ 2 ∧ 1 ≤ 2 ∧ ([0, 1, 2, 3] : List Nat).length = 2 * 2 ∧
      ∀ g ∈ ([0, 1, 2, 3] : List Nat), some g = some g) ∧
    ((runLoop 2 ([0, 1, 2, 3] : List Nat).length 0 (fun g : Nat => some g)
        [0, 1, 2, 3] 0 [] []).length = 2 ∧
    (∀ p ∈ runLoop 2 ([0, 1, 2, 3] : List Nat).length 0 (fun g : Nat => some g)
        [0, 1, 2, 3] 0 [] [], p.2.length = 2) ∧
    (extract_and_save 2 (fun n : Nat => (n : Int)) (fun g : Nat => some g)
        "ST" "Rrs" [0, 1, 2, 3] true ⟨[], none⟩).fs.checkpoints = [] ∧
    (∃ recs,
      (extract_and_save 2 (fun n : Nat => (n : Int)) (fun g : Nat => some g)
        "ST" "Rrs" [0, 1, 2, 3] true ⟨[], none⟩).fs.final = some recs ∧
      recs.length = 2 * 2 ∧
      List.Sorted (fun a b : Nat => (a : Int) ≤ (b : Int)) recs)) :=
  ⟨⟨by decide, by decide, by decide, fun g _ => rfl⟩,
    extract_and_save_happy_path 2 2 (fun n : Nat => (n : Int))
      (fun g : Nat => some g) (fun g => g) "ST" "Rrs" [0, 1, 2, 3]
      (by decide) (by decide) (by decide) (fun g _ => rfl)⟩

/-- C8: `_finalize_station` deletes checkpoints only after the final write
succeeds.  With at least one checkpoint present: if the final write fails,
the exception propagates and every checkpoint file is left intact (and no
final artifact appears); if it succeeds, zero checkpoint files remain and
exactly one final artifact exists, holding a permutation of all the
checkpoints' records sorted ascending by time. -/
theorem finalize_station_cleanup {R : Type} (time : R → Int) (st pt : String)
    (fs : FS R) (hne : fs.checkpoints ≠ []) :
    finalize_station time st pt false fs = (Outcome.err, fs) ∧
    ∃ recs,
      finalize_station time st pt true fs =
        (Outcome.ret (some (finalName st pt)), ⟨[], some recs⟩) ∧
      recs.Perm (fs.checkpoints.map Prod.snd).flatten ∧
      List.Sorted (fun a b => time a ≤ time b) recs :=
  ⟨finalize_station_err time st pt fs hne,
    (fs.checkpoints.map Prod.snd).flatten.mergeSort
      (fun a b => decide (time a ≤ time b)),
    finalize_station_ok time st pt fs hne,
    List.mergeSort_perm _ _,
    sorted_by_time time _⟩

/-- C8 witness: two checkpoints with out-of-order times. -/
theorem finalize_station_cleanup_witness :
    ((⟨[(1, [3]), (2, [1])], none⟩ : FS Nat).checkpoints ≠ []) ∧
    (finalize_station (fun n : Nat => (n : Int)) "ST" "Rrs" false
        ⟨[(1, [3]), (2, [1])], none⟩ =
      (Outcome.err, ⟨[(1, [3]), (2, [1])], none⟩) ∧
    ∃ recs,
      finalize_station (fun n : Nat => (n : Int)) "ST" "Rrs" true
          ⟨[(1, [3]), (2, [1])], none⟩ =
        (Outcome.ret (some (finalName "ST" "Rrs")), ⟨[], some recs⟩) ∧
      recs.Perm ((⟨[(1, [3]), (2, [1])], none⟩ : FS Nat).checkpoints.map
        Prod.snd).flatten ∧
      List.Sorted (fun a b : Nat => (a : Int) ≤ (b : Int)) recs) :=
  ⟨by decide, finalize_station_cleanup (fun n : Nat => (n : Int)) "ST" "Rrs"
    ⟨[(1, [3]), (2, [1])], none⟩ (by decide)⟩

/-- C9: for a non-empty pixel grid, `_extract_granule_pixel` returns the
record of a pixel whose Euclidean distance
`√((lat_pix − lat)² + (lon_pix − lon)²)` to the target is minimal over the
whole 2D grid, carrying the full spectral vector at that pixel's row/column,
the wavelength axis, the matched pixel's own lat/lon, its quality bitmask,
and the granule's `time_coverage_start` timestamp. -/
theorem extract_granule_pixel_nearest (src : GranuleSource) (lat lon : ℚ)
    (hR : 0 < src.rows) (hC : 0 < src.cols) :
    ∃ iy ix : Nat, iy < src.rows ∧ ix < src.cols ∧
      extract_granule_pixel src lat lon =
        { spectrum := src.spectra iy ix
          wavelength := src.wavelength
          time := src.time_coverage_start
          lat := src.latitude iy ix
          lon := src.longitude iy ix
          l2_flags := src.l2_flags iy ix } ∧
      ∀ r c : Nat, r < src.rows → c < src.cols →
        Real.sqrt ((distSq src lat lon iy ix : ℚ) : ℝ) ≤
          Real.sqrt ((distSq src lat lon r c : ℚ) : ℝ) := by
  have hpos : 0 < src.rows * src.cols := Nat.mul_pos hR hC
  have hlt : argminFlat
      (fun j => distSq src lat lon (j / src.cols) (j % src.cols))
      (src.rows * src.cols) < src.rows * src.cols :=
    argminFlat_lt _ _ hpos
  refine ⟨argminFlat (fun j => distSq src lat lon (j / src.cols) (j % src.cols))
      (src.rows * src.cols) / src.cols,
    argminFlat (fun j => distSq src lat lon (j / src.cols) (j % src.cols))
      (src.rows * src.cols) % src.cols,
    (Nat.div_lt_iff_lt_mul hC).mpr hlt,
    Nat.mod_lt _ hC, rfl, ?_⟩
  intro r c hr hc
  have hj : src.cols * r + c < src.rows * src.cols := by
    calc src.cols * r + c < src.cols * r + src.cols := by omega
      _ = src.cols * (r + 1) := by ring
      _ ≤ src.cols * src.rows := Nat.mul_le_mul_left _ (by omega)
      _ = src.rows * src.cols := by ring
  have hmin := argminFlat_min
    (fun j => distSq src lat lon (j / src.cols) (j % src.cols))
    (src.rows * src.cols) (src.cols * r + c) hj
  have hdiv : (src.cols * r + c) / src.cols = r := by
    rw [Nat.mul_add_div hC, Nat.div_eq_of_lt hc]
    omega
  have hmod : (src.cols * r + c) % src.cols = c := by
    rw [Nat.mul_add_mod, Nat.mod_eq_of_lt hc]
  simp only [hdiv, hmod] at hmin
  exact Real.sqrt_le_sqrt (by exact_mod_cast hmin)

/-- C9 witness: a 1×2 grid whose second pixel is nearer to the target. -/
theorem extract_granule_pixel_nearest_witness :
    ((0 : Nat) < (⟨1, 2, fun _ ix => ix, fun _ _ => 0, 7,
        fun _ ix => [ix, 10], fun _ ix => ix, [400, 500]⟩ :
        GranuleSource).rows ∧
      (0 : Nat) < (⟨1, 2, fun _ ix => ix, fun _ _ => 0, 7,
        fun _ ix => [ix, 10], fun _ ix => ix, [400, 500]⟩ :
        GranuleSource).cols) ∧
    (∃ iy ix : Nat,
      iy < (⟨1, 2, fun _ ix => ix, fun _ _ => 0, 7,
        fun _ ix => [ix, 10], fun _ ix => ix, [400, 500]⟩ :
        GranuleSource).rows ∧
      ix < (⟨1, 2, fun _ ix => ix, fun _ _ => 0, 7,
        fun _ ix => [ix, 10], fun _ ix => ix, [400, 500]⟩ :
        GranuleSource).cols ∧
      extract_granule_pixel
        (⟨1, 2, fun _ ix => ix, fun _ _ => 0, 7,
          fun _ ix => [ix, 10], fun _ ix => ix, [400, 500]⟩ :
          GranuleSource) 1 0 =
        { spectrum := (⟨1, 2, fun _ ix => ix, fun _ _ => 0, 7,
            fun _ ix => [ix, 10], fun _ ix => ix, [400, 500]⟩ :
            GranuleSource).spectra iy ix
          wavelength := (⟨1, 2, fun _ ix => ix, fun _ _ => 0, 7,
            fun _ ix => [ix, 10], fun _ ix => ix, [400, 500]⟩ :
            GranuleSource).wavelength
          time := (⟨1, 2, fun _ ix => ix, fun _ _ => 0, 7,
            fun _ ix => [ix, 10], fun _ ix => ix, [400, 500]⟩ :
            GranuleSource).time_coverage_start
          lat := (⟨1, 2, fun _ ix => ix, fun _ _ => 0, 7,
            fun _ ix => [ix, 10], fun _ ix => ix, [400, 500]⟩ :
            GranuleSource).latitude iy ix
          lon := (⟨1, 2, fun _ ix => ix, fun _ _ => 0, 7,
            fun _ ix => [ix, 10], fun _ ix => ix, [400, 500]⟩ :
            GranuleSource).longitude iy ix
          l2_flags := (⟨1, 2, fun _ ix => ix, fun _ _ => 0, 7,
            fun _ ix => [ix, 10], fun _ ix => ix, [400, 500]⟩ :
            GranuleSource).l2_flags iy ix } ∧
      ∀ r c : Nat,
        r < (⟨1, 2, fun _ ix => ix, fun _ _ => 0, 7,
          fun _ ix => [ix, 10], fun _ ix => ix, [400, 500]⟩ :
          GranuleSource).rows →
        c < (⟨1, 2, fun _ ix => ix, fun _ _ => 0, 7,
          fun _ ix => [ix, 10], fun _ ix => ix, [400, 500]⟩ :
          GranuleSource).cols →
        Real.sqrt ((distSq
          (⟨1, 2, fun _ ix => ix, fun _ _ => 0, 7,
            fun _ ix => [ix, 10], fun _ ix => ix, [400, 500]⟩ :
            GranuleSource) 1 0 iy ix : ℚ) : ℝ) ≤
          Real.sqrt ((distSq
            (⟨1, 2, fun _ ix => ix, fun _ _ => 0, 7,
              fun _ ix => [ix, 10], fun _ ix => ix, [400, 500]⟩ :
              GranuleSource) 1 0 r c : ℚ) : ℝ)) :=
  ⟨⟨by decide, by decide⟩,
    extract_granule_pixel_nearest
      ⟨1, 2, fun _ ix => ix, fun _ _ => 0, 7,
        fun _ ix => [ix, 10], fun _ ix => ix, [400, 500]⟩ 1 0
      (by decide) (by decide)⟩

/-- C10: `filter_rrc` retains a record unchanged exactly when
`l2_flags AND 42 = 0`, i.e. when bits 1, 3 and 5 of its quality bitmask are
all clear, and masks (replaces with missing values) every record where any of
those bits is set; the masked bit positions are the fixed literal
`1<<1 | 1<<3 | 1<<5 = 42`, not a parameter. -/
theorem filter_rrc_mask_spec (ds : List FlagRec) (i : Nat) :
    (filter_rrc ds)[i]? =
      (ds[i]?).map (fun r => if r.l2_flags &&& 42 = 0 then some r else none) ∧
    ∀ flags : Nat,
      (flags &&& 42 = 0 ↔
        (flags.testBit 1 = false ∧ flags.testBit 3 = false ∧
          flags.testBit 5 = false)) := by
  constructor
  · have hm : rrcMask = 42 := by decide
    simp [filter_rrc, List.getElem?_map, hm]
  · exact and_42_eq_zero_iff

end Overpass
